/-
Verification of the frozen-backbone multi-scale feature extractor
(`models/backbone_frozen.py`): the frozen batch-norm operator, the
backbone level extraction (primary and support branches), and the
joiner that sorts levels and pairs them with positional encodings.

Modelling conventions:
* a 4-D torch tensor `[B, C, H, W]` is a shape record plus a total
  indexing function; the element type `α` stands for the set of finite
  floating-point values, with exact arithmetic standing in for rounded
  arithmetic;
* a padding mask `[B, H, W]` of booleans is likewise a shape record
  plus an indexing function;
* `torch.Tensor.dtype` is modelled as a tag field on the tensor;
* the reciprocal square root `Tensor.rsqrt` is an abstract function
  parameter (floating-point `rsqrt` has no exact rational counterpart);
  where non-finite results (NaN/Inf) matter, a guarded variant returns
  `none` exactly when the argument is not positive, since IEEE `rsqrt`
  of a finite argument is finite precisely when the argument is positive;
* Python `dict`s keyed by strings are association lists; `None` is
  `Option.none`; a failing `assert` (or an exception raised on using a
  missing mask) makes the operation return `none`.
-/
import Mathlib

namespace BackboneFrozen

/-- `torch.dtype` modelled as a plain tag. -/
inductive DType where
  | float16 : DType
  | float32 : DType
  | float64 : DType
deriving DecidableEq

/-- A 4-D tensor `[batch, channels, height, width]` over element type `α`:
shape fields, a dtype tag and a total indexing function. -/
structure Tensor4 (α : Type) where
  batch : Nat
  channels : Nat
  height : Nat
  width : Nat
  dtype : DType
  data : Nat → Nat → Nat → Nat → α

/-- `torch.Tensor.to(dtype)`: retag the element type. -/
def Tensor4.to {α : Type} (t : Tensor4 α) (d : DType) : Tensor4 α :=
  { t with dtype := d }

/-- A boolean padding mask `[batch, height, width]` (`true` marks padding). -/
structure Mask3 where
  batch : Nat
  height : Nat
  width : Nat
  data : Nat → Nat → Nat → Bool

/-- `util.misc.NestedTensor`: a tensor with an optional padding mask. -/
structure NestedTensor (α : Type) where
  tensors : Tensor4 α
  mask : Option Mask3

/-- `F.interpolate(m[None].float(), size=x.shape[-2:]).to(torch.bool)[0]`:
nearest-neighbour resize of the boolean mask to spatial size `h × w`
(the float round-trip is the identity on 0/1 values). -/
def interpolateMask (m : Mask3) (h w : Nat) : Mask3 :=
  { batch := m.batch
    height := h
    width := w
    data := fun b y x => m.data b (y * m.height / h) (x * m.width / w) }

/-- `FrozenBatchNorm2d`: four fixed per-channel statistic vectors and the
epsilon.  `n` is the channel count the module was constructed with. -/
structure FrozenBatchNorm2d (α : Type) where
  n : Nat
  weight : Nat → α
  bias : Nat → α
  running_mean : Nat → α
  running_var : Nat → α
  eps : α

/-- `FrozenBatchNorm2d.__init__(n, eps)`: weight and variance start at
ones, bias and mean at zeros. -/
def FrozenBatchNorm2d.init {α : Type} [One α] [Zero α] (n : Nat) (eps : α) :
    FrozenBatchNorm2d α :=
  { n := n
    weight := fun _ => 1
    bias := fun _ => 0
    running_mean := fun _ => 0
    running_var := fun _ => 1
    eps := eps }

/-- `FrozenBatchNorm2d.forward`: `scale = w * (rv + eps).rsqrt()`,
`bias = b - rm * scale`, `return x * scale + bias`, broadcast over the
channel dimension.  `rsqrt` is the abstract reciprocal square root. -/
def FrozenBatchNorm2d.forward {α : Type} [Ring α] (rsqrt : α → α)
    (self : FrozenBatchNorm2d α) (x : Tensor4 α) : Tensor4 α :=
  let scale : Nat → α := fun c => self.weight c * rsqrt (self.running_var c + self.eps)
  let b : Nat → α := fun c => self.bias c - self.running_mean c * scale c
  { x with data := fun n c h w => x.data n c h w * scale c + b c }

/-- Guarded reciprocal square root: IEEE `rsqrt` of a finite argument is
finite exactly when the argument is positive, so `none` marks a
non-finite (NaN/Inf) result. -/
def rsqrtChecked {α : Type} [LinearOrderedField α] (rsqrt : α → α) (v : α) :
    Option α :=
  if 0 < v then some (rsqrt v) else none

/-- `FrozenBatchNorm2d.forward` with non-finiteness tracking: the value at
position `(n, c, h, w)` is `none` when the reciprocal square root in
`scale` is non-finite at channel `c`, and otherwise the finite value the
unguarded forward computes. -/
def FrozenBatchNorm2d.forwardChecked {α : Type} [LinearOrderedField α]
    (rsqrt : α → α) (self : FrozenBatchNorm2d α) (x : Tensor4 α) :
    Nat → Nat → Nat → Nat → Option α :=
  fun n c h w =>
    (rsqrtChecked rsqrt (self.running_var c + self.eps)).map fun r =>
      let scale := self.weight c * r
      x.data n c h w * scale + (self.bias c - self.running_mean c * scale)

/-- A value stored in a persisted state dict: either a per-channel float
vector (the four statistic buffers) or the legacy integer batch counter. -/
inductive SDValue (α : Type) where
  | vec : (Nat → α) → SDValue α
  | counter : Nat → SDValue α

/-- A persisted parameter set (`state_dict`): an association list from
string keys to stored values, mirroring a Python `dict`. -/
def StateDict (α : Type) : Type := List (String × SDValue α)

/-- The buffer names `FrozenBatchNorm2d` registers, in registration order. -/
def fbnBufferNames : List String :=
  ["weight", "bias", "running_mean", "running_var"]

/-- Read one buffer out of a state dict: if `key` maps to a vector, load
it, otherwise keep the module's current value (a missing key only gets
recorded, it does not overwrite the buffer). -/
def loadBuffer {α : Type} (sd : StateDict α) (key : String) (old : Nat → α) :
    Nat → α :=
  match List.lookup key sd with
  | some (SDValue.vec f) => f
  | _ => old

/-- The result of `_load_from_state_dict`: the updated module, the state
dict as the caller sees it afterwards (the call mutates it in place),
and the recorded missing / unexpected keys. -/
structure LoadOutcome (α : Type) where
  module : FrozenBatchNorm2d α
  state_dict : StateDict α
  missing_keys : List String
  unexpected_keys : List String

/-- `nn.Module._load_from_state_dict` specialised to `FrozenBatchNorm2d`
(no submodules, four registered buffers, no parameters): copy each
present buffer, record absent buffers as missing when `strict`, and when
`strict` record every key under this prefix whose first dotted component
is not a registered buffer as unexpected. -/
def FrozenBatchNorm2d.superLoadFromStateDict {α : Type}
    (self : FrozenBatchNorm2d α) (sd : StateDict α) (pfx : String)
    (strict : Bool) : LoadOutcome α :=
  let module :=
    { self with
      weight := loadBuffer sd (pfx ++ "weight") self.weight
      bias := loadBuffer sd (pfx ++ "bias") self.bias
      running_mean := loadBuffer sd (pfx ++ "running_mean") self.running_mean
      running_var := loadBuffer sd (pfx ++ "running_var") self.running_var }
  let missing :=
    if strict then
      (fbnBufferNames.filter fun nm => (List.lookup (pfx ++ nm) sd).isNone).map
        fun nm => pfx ++ nm
    else []
  let unexpected :=
    if strict then
      (sd.map Prod.fst).filter fun key =>
        pfx.data.isPrefixOf key.data &&
          !(fbnBufferNames.contains
            ((key.data.drop pfx.data.length).takeWhile fun c => c ≠ '.').asString)
    else []
  { module := module, state_dict := sd, missing_keys := missing,
    unexpected_keys := unexpected }

/-- `FrozenBatchNorm2d._load_from_state_dict`: drop the legacy
`num_batches_tracked` key from the caller's dict if present, then defer
to the generic module loader on the mutated dict. -/
def FrozenBatchNorm2d.loadFromStateDict {α : Type}
    (self : FrozenBatchNorm2d α) (state_dict : StateDict α) (pfx : String)
    (strict : Bool) : LoadOutcome α :=
  let num_batches_tracked_key := pfx ++ "num_batches_tracked"
  let state_dict :=
    if (List.lookup num_batches_tracked_key state_dict).isSome then
      state_dict.eraseP fun p => p.1 == num_batches_tracked_key
    else state_dict
  self.superLoadFromStateDict state_dict pfx strict

/-- The opaque ResNet trunk: the named stages `BackboneBase` touches,
each an opaque map from tensors to tensors. -/
structure Trunk (α : Type) where
  conv1 : Tensor4 α → Tensor4 α
  bn1 : Tensor4 α → Tensor4 α
  relu : Tensor4 α → Tensor4 α
  maxpool : Tensor4 α → Tensor4 α
  layer1 : Tensor4 α → Tensor4 α
  layer2 : Tensor4 α → Tensor4 α
  layer3 : Tensor4 α → Tensor4 α
  layer4 : Tensor4 α → Tensor4 α

/-- `BackboneBase`: the trunk plus the construction-time level
configuration (`return_interm_layers`, strides, channel counts). -/
structure BackboneBase (α : Type) where
  backbone : Trunk α
  return_interm_layers : Bool
  strides : List Nat
  num_channels : List Nat

/-- `BackboneBase.__init__`: three tapped stages with strides
`[8, 16, 32]` and channels `[512, 1024, 2048]` when intermediate layers
are requested, otherwise the deepest stage only. -/
def BackboneBase.init {α : Type} (backbone : Trunk α)
    (return_interm_layers : Bool) : BackboneBase α :=
  if return_interm_layers then
    { backbone := backbone, return_interm_layers := return_interm_layers
      strides := [8, 16, 32], num_channels := [512, 1024, 2048] }
  else
    { backbone := backbone, return_interm_layers := return_interm_layers
      strides := [32], num_channels := [2048] }

/-- `IntermediateLayerGetter(backbone, return_layers)` applied to an
input: run the trunk stages in order and collect the requested
activations under their configured keys. -/
def intermediateLayers {α : Type} (t : Trunk α) (return_interm_layers : Bool)
    (x : Tensor4 α) : List (String × Tensor4 α) :=
  let stem := t.maxpool (t.relu (t.bn1 (t.conv1 x)))
  let l2 := t.layer2 (t.layer1 stem)
  if return_interm_layers then
    let l3 := t.layer3 l2
    [("0", l2), ("1", l3), ("2", t.layer4 l3)]
  else
    [("0", t.layer4 (t.layer3 l2))]

/-- `BackboneBase.forward`: run the wrapped trunk, and pair each tapped
activation with the input mask resized to that activation's spatial
size.  The tapped collection is never empty, so the in-loop
`assert m is not None` is equivalent to the up-front check modelled
here: a missing mask makes the call fail (`none`). -/
def BackboneBase.forward {α : Type} (self : BackboneBase α)
    (tensor_list : NestedTensor α) :
    Option (List (String × NestedTensor α)) :=
  match tensor_list.mask with
  | none => none
  | some m =>
      some ((intermediateLayers self.backbone self.return_interm_layers
          tensor_list.tensors).map fun p =>
        (p.1, ⟨p.2, some (interpolateMask m p.2.height p.2.width)⟩))

/-- `BackboneBase.support_encoding_net`: run the trunk stages explicitly;
the level granularity comes from the call-time `return_interm_layers`
flag, not from the construction-time configuration.  A missing mask
makes the call fail (`none`): the mask is subscripted on every path. -/
def BackboneBase.support_encoding_net {α : Type} (self : BackboneBase α)
    (x : NestedTensor α) (return_interm_layers : Bool) :
    Option (List (String × NestedTensor α)) :=
  match x.mask with
  | none => none
  | some m =>
      let t := self.backbone
      let x1 := t.maxpool (t.relu (t.bn1 (t.conv1 x.tensors)))
      let x2 := t.layer2 (t.layer1 x1)
      if return_interm_layers then
        let x3 := t.layer3 x2
        let x4 := t.layer4 x3
        some [("0", ⟨x2, some (interpolateMask m x2.height x2.width)⟩),
              ("1", ⟨x3, some (interpolateMask m x3.height x3.width)⟩),
              ("2", ⟨x4, some (interpolateMask m x4.height x4.width)⟩)]
      else
        let x4 := t.layer4 (t.layer3 x2)
        some [("0", ⟨x4, some (interpolateMask m x4.height x4.width)⟩)]

/-- `Backbone.__init__`: reject the two smallest ResNet variants (their
channel counts are not the hard-coded ones), configure the base, and
halve the last stride when dilation is enabled.  The trunk itself is an
external collaborator passed in. -/
def Backbone.init {α : Type} (name : String) (_train_backbone : Bool)
    (return_interm_layers : Bool) (dilation : Bool) (backbone : Trunk α) :
    Option (BackboneBase α) :=
  if name = "resnet18" ∨ name = "resnet34" then none
  else
    let base := BackboneBase.init backbone return_interm_layers
    if dilation then
      some { base with
        strides := base.strides.set (base.strides.length - 1)
          (base.strides.getD (base.strides.length - 1) 0 / 2) }
    else some base

/-- `Joiner`: the backbone at index 0 and the positional-encoding
collaborator at index 1, with the backbone's level metadata copied. -/
structure Joiner (α : Type) where
  backbone : BackboneBase α
  position_embedding : NestedTensor α → Tensor4 α
  strides : List Nat
  num_channels : List Nat

/-- `Joiner.__init__`. -/
def Joiner.init {α : Type} (backbone : BackboneBase α)
    (position_embedding : NestedTensor α → Tensor4 α) : Joiner α :=
  { backbone := backbone, position_embedding := position_embedding
    strides := backbone.strides, num_channels := backbone.num_channels }

/-- The key order Python's `sorted(xs.items())` uses: lexicographic
string order on the dict keys (keys are unique, so the tuple comparison
never reaches the values).  Stated on the underlying character lists,
which is the same order as `String` ≤ (`keyLe_iff`). -/
def keyLe {α : Type} (p q : String × NestedTensor α) : Prop :=
  p.1.data ≤ q.1.data

instance {α : Type} : DecidableRel (keyLe (α := α)) :=
  fun p q => inferInstanceAs (Decidable (p.1.data ≤ q.1.data))

theorem keyLe_iff {α : Type} (p q : String × NestedTensor α) :
    keyLe p q ↔ p.1 ≤ q.1 :=
  String.le_iff_toList_le.symm

/-- `sorted(xs.items())`: a stable sort of the level list by key. -/
def sortLevels {α : Type} (xs : List (String × NestedTensor α)) :
    List (String × NestedTensor α) :=
  List.insertionSort keyLe xs

/-- The shared tail of both `Joiner` entry points: sort the levels by
key, keep the nested tensors, and pair each with its positional
encoding cast to the tensor's dtype. -/
def composeLevels {α : Type} (position_embedding : NestedTensor α → Tensor4 α)
    (xs : List (String × NestedTensor α)) :
    List (NestedTensor α) × List (Tensor4 α) :=
  let out := (sortLevels xs).map Prod.snd
  let pos := out.map fun x => (position_embedding x).to x.tensors.dtype
  (out, pos)

/-- `Joiner.forward`: primary extraction, then sort / encode. -/
def Joiner.forward {α : Type} (self : Joiner α) (tensor_list : NestedTensor α) :
    Option (List (NestedTensor α) × List (Tensor4 α)) :=
  (self.backbone.forward tensor_list).map
    (composeLevels self.position_embedding)

/-- `Joiner.forward_supp_branch`: support-branch extraction with the
call-time granularity flag, then the same sort / encode tail. -/
def Joiner.forward_supp_branch {α : Type} (self : Joiner α)
    (tensor_list : NestedTensor α) (return_interm_layers : Bool) :
    Option (List (NestedTensor α) × List (Tensor4 α)) :=
  (self.backbone.support_encoding_net tensor_list return_interm_layers).map
    (composeLevels self.position_embedding)

/-- Both spatial dimensions of a produced level's mask match its paired
tensor (`mask.shape[-2:] == tensor.shape[-2:]`); `false` when the mask
is absent. -/
def maskMatches {α : Type} (nt : NestedTensor α) : Bool :=
  match nt.mask with
  | none => false
  | some mk => mk.height == nt.tensors.height && mk.width == nt.tensors.width

/-! ### Concrete instances used to exercise the definitions -/

/-- A trunk whose stages are all the identity map (stage behaviour is
opaque to every property proved here). -/
def trunkW : Trunk ℚ :=
  ⟨id, id, id, id, id, id, id, id⟩

/-- A concrete 1 × 3 × 4 × 4 input tensor. -/
def xW : Tensor4 ℚ :=
  ⟨1, 3, 4, 4, DType.float32, fun _ _ _ _ => 5⟩

/-- A concrete all-valid 1 × 4 × 4 mask. -/
def maskW : Mask3 :=
  ⟨1, 4, 4, fun _ _ _ => false⟩

/-- A concrete masked input batch. -/
def ntW : NestedTensor ℚ :=
  ⟨xW, some maskW⟩

/-- The same batch with its mask missing. -/
def ntNoMaskW : NestedTensor ℚ :=
  ⟨xW, none⟩

/-- A concrete frozen-norm module with one zero-variance channel
statistic vector. -/
def fbnW : FrozenBatchNorm2d ℚ :=
  { n := 3
    weight := fun _ => 2
    bias := fun _ => 3
    running_mean := fun _ => 5
    running_var := fun _ => 0
    eps := 1 }

/-- A concrete positional-encoding collaborator. -/
def peW : NestedTensor ℚ → Tensor4 ℚ :=
  fun nt => { nt.tensors with dtype := DType.float64 }

/-- The property the joiner guarantees about one returned pair of
sequences, relative to the level collection `xs` it composed: the
features are the key-sorted levels, whose keys ascend, and each position
is the positional encoding of the matching feature cast to that
feature's dtype. -/
def composedOutput {α : Type} (pe : NestedTensor α → Tensor4 α)
    (xs : List (String × NestedTensor α))
    (out : List (NestedTensor α)) (pos : List (Tensor4 α)) : Prop :=
  out = (sortLevels xs).map Prod.snd ∧
  List.Sorted (· ≤ ·) ((sortLevels xs).map Prod.fst) ∧
  out.length = pos.length ∧
  ∀ i (h1 : i < out.length) (h2 : i < pos.length),
    pos.get ⟨i, h2⟩ =
      (pe (out.get ⟨i, h1⟩)).to (out.get ⟨i, h1⟩).tensors.dtype

/-- The single level the identity trunk produces for `ntW` on the
single-level paths. -/
def ntLevelW : NestedTensor ℚ :=
  ⟨xW, some (interpolateMask maskW 4 4)⟩

/-- The feature sequence those paths return. -/
def outW : List (NestedTensor ℚ) :=
  [ntLevelW]

/-- The matching position sequence. -/
def posW : List (Tensor4 ℚ) :=
  [(peW ntLevelW).to ntLevelW.tensors.dtype]

/-! ### Claim theorems -/

/-- Claim C1: for every input tensor with `C` channels, the frozen
normalization operator returns a tensor of identical shape whose value at
every position of channel `c` is
`x * scale c + (bias c - running_mean c * scale c)` with
`scale c = weight c / sqrt (running_var c + eps)`, computed from the four
fixed per-channel vectors and epsilon.  `sqrt` is the abstract square
root and the code's `rsqrt` is its reciprocal. -/
theorem frozenBN_forward_matches_spec {α : Type} [Field α]
    (sqrt rsqrt : α → α) (hrs : ∀ v, rsqrt v = (sqrt v)⁻¹)
    (self : FrozenBatchNorm2d α) (x : Tensor4 α) :
    (self.forward rsqrt x).batch = x.batch ∧
    (self.forward rsqrt x).channels = x.channels ∧
    (self.forward rsqrt x).height = x.height ∧
    (self.forward rsqrt x).width = x.width ∧
    ∀ n c h w, (self.forward rsqrt x).data n c h w =
      x.data n c h w * (self.weight c / sqrt (self.running_var c + self.eps)) +
        (self.bias c -
          self.running_mean c * (self.weight c / sqrt (self.running_var c + self.eps))) := by
  refine ⟨rfl, rfl, rfl, rfl, fun n c h w => ?_⟩
  simp only [FrozenBatchNorm2d.forward, hrs, div_eq_mul_inv]

/-- Witness for C1 at a concrete module, input and square root
(`sqrt := id`, `rsqrt := Inv.inv` on ℚ). -/
theorem frozenBN_forward_matches_spec_witness :
    (fbnW.forward (fun v => v⁻¹) xW).data 0 0 0 0 =
      xW.data 0 0 0 0 * (fbnW.weight 0 / id (fbnW.running_var 0 + fbnW.eps)) +
        (fbnW.bias 0 -
          fbnW.running_mean 0 * (fbnW.weight 0 / id (fbnW.running_var 0 + fbnW.eps))) :=
  (frozenBN_forward_matches_spec id (fun v => v⁻¹) (fun _ => rfl) fbnW xW).2.2.2.2 0 0 0 0

/-- Claim C2: when every `running_var c` is nonnegative and `eps` is
positive, the frozen normalization output is finite (`isSome` in the
non-finiteness-tracking model) at every position of every finite input,
even for channels with `running_var c = 0`, because `eps` is added
before the reciprocal square root is taken. -/
theorem frozenBN_forward_finite {α : Type} [LinearOrderedField α]
    (rsqrt : α → α) (self : FrozenBatchNorm2d α) (x : Tensor4 α)
    (hrv : ∀ c, 0 ≤ self.running_var c) (heps : 0 < self.eps) :
    ∀ n c h w, (self.forwardChecked rsqrt x n c h w).isSome := by
  intro n c h w
  have hv : 0 < self.running_var c + self.eps :=
    add_pos_of_nonneg_of_pos (hrv c) heps
  simp [FrozenBatchNorm2d.forwardChecked, rsqrtChecked, hv]

/-- Witness for C2 at a concrete module whose running variance is zero
on every channel. -/
theorem frozenBN_forward_finite_witness :
    (fbnW.forwardChecked (fun v => v⁻¹) xW 0 0 0 0).isSome :=
  frozenBN_forward_finite (fun v => v⁻¹) fbnW xW (fun _ => le_refl 0) one_pos
    0 0 0 0

/-- Claim C9: requesting one of the two smallest-capacity trunk variants
fails at construction time (the constructor returns `none`), for every
mode, dilation setting and trunk — in particular in multi-level mode. -/
theorem small_resnets_rejected {α : Type} (t : Trunk α)
    (train_backbone return_interm_layers dilation : Bool) :
    Backbone.init "resnet18" train_backbone return_interm_layers dilation t
        = none ∧
    Backbone.init "resnet34" train_backbone return_interm_layers dilation t
        = none :=
  ⟨rfl, rfl⟩

/-- Claim C6: with a missing (`none`) validity mask, both extraction
operations — and both joiner entry points built on them — fail at call
time instead of proceeding without a mask. -/
theorem missing_mask_fails {α : Type} (self : BackboneBase α)
    (pe : NestedTensor α → Tensor4 α) (x : NestedTensor α)
    (hm : x.mask = none) :
    self.forward x = none ∧
    (∀ ril, self.support_encoding_net x ril = none) ∧
    (Joiner.init self pe).forward x = none ∧
    (∀ ril, (Joiner.init self pe).forward_supp_branch x ril = none) := by
  refine ⟨?_, fun ril => ?_, ?_, fun ril => ?_⟩ <;>
    simp [BackboneBase.forward, BackboneBase.support_encoding_net,
      Joiner.forward, Joiner.forward_supp_branch, Joiner.init, hm]

/-- Witness for C6 at a concrete extractor and a concrete batch whose
mask is `none`. -/
theorem missing_mask_fails_witness :
    (BackboneBase.init trunkW true).forward ntNoMaskW = none ∧
    (BackboneBase.init trunkW true).support_encoding_net ntNoMaskW false
        = none :=
  ⟨(missing_mask_fails (BackboneBase.init trunkW true) peW ntNoMaskW rfl).1,
   (missing_mask_fails (BackboneBase.init trunkW true) peW ntNoMaskW rfl).2.1
     false⟩

/-- Claim C5: on both extraction paths, every produced level pairs its
tensor with a mask of the same spatial shape
(`mask.shape[-2:] == tensor.shape[-2:]`), because the mask is
interpolated to the resolution of the activation it is paired with. -/
theorem levels_mask_matches_tensor_shape {α : Type} (self : BackboneBase α)
    (x : NestedTensor α) (ril : Bool) :
    ((self.forward x).getD []).all (fun p => maskMatches p.2) = true ∧
    ((self.support_encoding_net x ril).getD []).all
        (fun p => maskMatches p.2) = true := by
  constructor
  · cases hx : x.mask with
    | none => simp [BackboneBase.forward, hx]
    | some m =>
        simp only [BackboneBase.forward, hx, Option.getD_some,
          List.all_eq_true, List.mem_map]
        rintro p ⟨q, hq, rfl⟩
        simp [maskMatches, interpolateMask]
  · cases hx : x.mask with
    | none => simp [BackboneBase.support_encoding_net, hx]
    | some m =>
        cases ril <;>
          simp [BackboneBase.support_encoding_net, hx, maskMatches,
            interpolateMask]

/-- A key that occurs nowhere in an association list looks up to
nothing. -/
theorem lookup_eq_none_of_not_mem {β : Type} (k : String)
    (l : List (String × β)) (h : k ∉ l.map Prod.fst) :
    List.lookup k l = none := by
  induction l with
  | nil => rfl
  | cons a t ih =>
      simp only [List.map_cons, List.mem_cons, not_or] at h
      have hk : (k == a.1) = false := beq_eq_false_iff_ne.mpr h.1
      simpa [List.lookup, hk] using ih h.2

/-- After erasing the entry of key `k` from an association list with
pairwise-distinct keys, `k` looks up to nothing. -/
theorem lookup_eraseP_self {β : Type} (k : String) (l : List (String × β))
    (hnd : (l.map Prod.fst).Nodup) :
    List.lookup k (l.eraseP fun p => p.1 == k) = none := by
  induction l with
  | nil => rfl
  | cons a t ih =>
      simp only [List.map_cons, List.nodup_cons] at hnd
      by_cases hak : a.1 = k
      · subst hak
        simp only [List.eraseP_cons, beq_self_eq_true, cond_true]
        exact lookup_eq_none_of_not_mem a.1 t hnd.1
      · have hk : (a.1 == k) = false := beq_eq_false_iff_ne.mpr hak
        have hk' : (k == a.1) = false :=
          beq_eq_false_iff_ne.mpr fun he => hak he.symm
        simpa [List.eraseP_cons, hk, List.lookup, hk'] using ih hnd.2

/-- Erasing the entry of key `k` leaves the lookup of every other key
unchanged. -/
theorem lookup_eraseP_ne {β : Type} (k k' : String) (hne : k' ≠ k)
    (l : List (String × β)) :
    List.lookup k' (l.eraseP fun p => p.1 == k) = List.lookup k' l := by
  induction l with
  | nil => rfl
  | cons a t ih =>
      by_cases hak : a.1 = k
      · subst hak
        have hk' : (k' == a.1) = false := beq_eq_false_iff_ne.mpr hne
        simp [List.eraseP_cons, List.lookup, hk']
      · have hk : (a.1 == k) = false := beq_eq_false_iff_ne.mpr hak
        cases hka : (k' == a.1) <;>
          simp [List.eraseP_cons, hk, List.lookup, hka, ih]

/-- Claim C7: loading a persisted parameter set that carries the legacy
`num_batches_tracked` key under this operator's prefix produces exactly
the same outcome — same loaded buffers, same missing / unexpected key
records, same final dict — as loading the set without that key: the key
is silently discarded. -/
theorem load_ignores_num_batches_tracked {α : Type}
    (self : FrozenBatchNorm2d α) (sd : StateDict α) (pfx : String)
    (strict : Bool) (k : Nat)
    (habs : List.lookup (pfx ++ "num_batches_tracked") sd = none) :
    self.loadFromStateDict
        ((pfx ++ "num_batches_tracked", SDValue.counter k) :: sd) pfx strict =
      self.loadFromStateDict sd pfx strict := by
  simp [FrozenBatchNorm2d.loadFromStateDict, List.lookup, List.eraseP_cons,
    habs]

/-- Witness for C7: a concrete persisted set with and without the legacy
counter key loads to the same outcome. -/
theorem load_ignores_num_batches_tracked_witness :
    fbnW.loadFromStateDict
        [("m." ++ "num_batches_tracked", SDValue.counter 7),
         ("m.weight", SDValue.vec fun _ => (4 : ℚ))] "m." true =
      fbnW.loadFromStateDict [("m.weight", SDValue.vec fun _ => (4 : ℚ))]
        "m." true :=
  load_ignores_num_batches_tracked fbnW
    [("m.weight", SDValue.vec fun _ => (4 : ℚ))] "m." true 7 rfl

/-- Claim C10: loading mutates the caller-supplied state dict in place:
the legacy key under this prefix is deleted (the returned dict is the
input dict with exactly that entry erased when it was present), so the
dict no longer contains the key afterwards, while every other key is
untouched. -/
theorem load_mutates_state_dict {α : Type} (self : FrozenBatchNorm2d α)
    (sd : StateDict α) (pfx : String) (strict : Bool)
    (hnd : (sd.map Prod.fst).Nodup) :
    ((self.loadFromStateDict sd pfx strict).state_dict =
        if (List.lookup (pfx ++ "num_batches_tracked") sd).isSome then
          sd.eraseP fun p => p.1 == pfx ++ "num_batches_tracked"
        else sd) ∧
    List.lookup (pfx ++ "num_batches_tracked")
        (self.loadFromStateDict sd pfx strict).state_dict = none ∧
    ∀ k', k' ≠ pfx ++ "num_batches_tracked" →
      List.lookup k' (self.loadFromStateDict sd pfx strict).state_dict =
        List.lookup k' sd := by
  by_cases hp : (List.lookup (pfx ++ "num_batches_tracked") sd).isSome
  · refine ⟨by simp [FrozenBatchNorm2d.loadFromStateDict,
      FrozenBatchNorm2d.superLoadFromStateDict, hp], ?_, fun k' hk' => ?_⟩
    · simp only [FrozenBatchNorm2d.loadFromStateDict,
        FrozenBatchNorm2d.superLoadFromStateDict, hp, if_true]
      exact lookup_eraseP_self _ sd hnd
    · simp only [FrozenBatchNorm2d.loadFromStateDict,
        FrozenBatchNorm2d.superLoadFromStateDict, hp, if_true]
      exact lookup_eraseP_ne _ k' hk' sd
  · have habs : List.lookup (pfx ++ "num_batches_tracked") sd = none :=
      Option.not_isSome_iff_eq_none.mp hp
    refine ⟨by simp [FrozenBatchNorm2d.loadFromStateDict,
      FrozenBatchNorm2d.superLoadFromStateDict, hp], ?_, fun k' hk' => ?_⟩ <;>
      simp [FrozenBatchNorm2d.loadFromStateDict,
        FrozenBatchNorm2d.superLoadFromStateDict, hp, habs]

/-- Witness for C10: loading a concrete dict that contains the legacy
key leaves a dict in which the key no longer resolves. -/
theorem load_mutates_state_dict_witness :
    List.lookup ("m." ++ "num_batches_tracked")
        (fbnW.loadFromStateDict
          [("m." ++ "num_batches_tracked", SDValue.counter 7),
           ("m.weight", SDValue.vec fun _ => (4 : ℚ))] "m." true).state_dict
      = none :=
  (load_mutates_state_dict fbnW
    [("m." ++ "num_batches_tracked", SDValue.counter 7),
     ("m.weight", SDValue.vec fun _ => (4 : ℚ))] "m." true
    (by decide)).2.1

/-- `composeLevels` satisfies `composedOutput` for every level
collection: the shared sort / pair / compose tail of both joiner entry
points is correct. -/
theorem composeLevels_composedOutput {α : Type}
    (pe : NestedTensor α → Tensor4 α)
    (xs : List (String × NestedTensor α)) :
    composedOutput pe xs (composeLevels pe xs).1 (composeLevels pe xs).2 := by
  haveI htot : IsTotal (String × NestedTensor α) keyLe :=
    ⟨fun a b => (le_total a.1 b.1).imp (keyLe_iff a b).mpr (keyLe_iff b a).mpr⟩
  haveI htr : IsTrans (String × NestedTensor α) keyLe :=
    ⟨fun a b c hab hbc => (keyLe_iff a c).mpr
      (le_trans ((keyLe_iff a b).mp hab) ((keyLe_iff b c).mp hbc))⟩
  have hsorted : List.Sorted keyLe (sortLevels xs) :=
    List.sorted_insertionSort keyLe xs
  refine ⟨rfl, ?_, ?_, ?_⟩
  · rw [List.Sorted, List.pairwise_map]
    exact hsorted.imp fun h => (keyLe_iff _ _).mp h
  · simp [composeLevels]
  · intro i h1 h2
    simp [composeLevels]

/-- Claim C3: whenever an entry point of the level composer returns, the
two returned sequences have equal length, the features are the levels
sorted in ascending key order, and each position is the positional
encoding of the matching feature cast to that feature's tensor dtype —
for the primary entry point and the support-branch entry point alike. -/
theorem joiner_sorted_and_aligned {α : Type} (self : Joiner α)
    (x : NestedTensor α) (ril : Bool)
    (out outS : List (NestedTensor α)) (pos2 pos2S : List (Tensor4 α))
    (h1 : self.forward x = some (out, pos2))
    (h2 : self.forward_supp_branch x ril = some (outS, pos2S)) :
    composedOutput self.position_embedding
        ((self.backbone.forward x).getD []) out pos2 ∧
    composedOutput self.position_embedding
        ((self.backbone.support_encoding_net x ril).getD []) outS pos2S := by
  constructor
  · rcases hb : self.backbone.forward x with _ | xs
    · rw [Joiner.forward, hb] at h1
      exact absurd h1 (by simp)
    · rw [Joiner.forward, hb, Option.map_some'] at h1
      have hout : out = (composeLevels self.position_embedding xs).1 :=
        congrArg Prod.fst (Option.some.inj h1).symm
      have hpos : pos2 = (composeLevels self.position_embedding xs).2 :=
        congrArg Prod.snd (Option.some.inj h1).symm
      rw [hout, hpos, Option.getD_some]
      exact composeLevels_composedOutput self.position_embedding xs
  · rcases hb : self.backbone.support_encoding_net x ril with _ | xs
    · rw [Joiner.forward_supp_branch, hb] at h2
      exact absurd h2 (by simp)
    · rw [Joiner.forward_supp_branch, hb, Option.map_some'] at h2
      have hout : outS = (composeLevels self.position_embedding xs).1 :=
        congrArg Prod.fst (Option.some.inj h2).symm
      have hpos : pos2S = (composeLevels self.position_embedding xs).2 :=
        congrArg Prod.snd (Option.some.inj h2).symm
      rw [hout, hpos, Option.getD_some]
      exact composeLevels_composedOutput self.position_embedding xs

/-- Witness for C3 at a concrete joiner and input, on both entry
points. -/
theorem joiner_sorted_and_aligned_witness :
    composedOutput peW
        (((Joiner.init (BackboneBase.init trunkW false) peW).backbone.forward
          ntW).getD []) outW posW ∧
    composedOutput peW
        (((Joiner.init (BackboneBase.init trunkW false)
          peW).backbone.support_encoding_net ntW false).getD []) outW posW :=
  joiner_sorted_and_aligned (Joiner.init (BackboneBase.init trunkW false) peW)
    ntW false outW outW posW posW rfl rfl

/-- Both sequences `composeLevels` returns have as many entries as the
level collection it was given (sorting and mapping preserve length). -/
theorem composeLevels_fst_length {α : Type}
    (pe : NestedTensor α → Tensor4 α)
    (xs : List (String × NestedTensor α)) :
    (composeLevels pe xs).1.length = xs.length := by
  simp [composeLevels, sortLevels, List.length_insertionSort]

theorem composeLevels_snd_length {α : Type}
    (pe : NestedTensor α → Tensor4 α)
    (xs : List (String × NestedTensor α)) :
    (composeLevels pe xs).2.length = xs.length := by
  simp [composeLevels, sortLevels, List.length_insertionSort]

/-- Claim C8: the support-branch level granularity is decided by the
call-time flag alone: on an extractor constructed with multi-level
configuration, a support-branch call with `multiLevel = false` returns
exactly one level (features and positions), while the primary call on
the same input still returns three. -/
theorem supp_branch_flag_decides_levels {α : Type} (self : Joiner α)
    (x : NestedTensor α) (m : Mask3)
    (hril : self.backbone.return_interm_layers = true)
    (hm : x.mask = some m) :
    (self.forward_supp_branch x false).map (fun r => r.1.length) = some 1 ∧
    (self.forward_supp_branch x false).map (fun r => r.2.length) = some 1 ∧
    (self.forward x).map (fun r => r.1.length) = some 3 ∧
    (self.forward x).map (fun r => r.2.length) = some 3 := by
  refine ⟨?_, ?_, ?_, ?_⟩ <;>
    simp [Joiner.forward_supp_branch, Joiner.forward,
      BackboneBase.support_encoding_net, BackboneBase.forward, hm, hril,
      intermediateLayers, composeLevels_fst_length, composeLevels_snd_length]

/-- Witness for C8 at a concrete multi-level extractor and input. -/
theorem supp_branch_flag_decides_levels_witness :
    (((Joiner.init (BackboneBase.init trunkW true) peW).forward_supp_branch
        ntW false).map (fun r => r.1.length) = some 1) ∧
    (((Joiner.init (BackboneBase.init trunkW true) peW).forward_supp_branch
        ntW false).map (fun r => r.2.length) = some 1) ∧
    (((Joiner.init (BackboneBase.init trunkW true) peW).forward ntW).map
        (fun r => r.1.length) = some 3) ∧
    (((Joiner.init (BackboneBase.init trunkW true) peW).forward ntW).map
        (fun r => r.2.length) = some 3) :=
  supp_branch_flag_decides_levels
    (Joiner.init (BackboneBase.init trunkW true) peW) ntW maskW rfl rfl

/-- Counterexample to claim C4 as stated: constructed with
`multiLevel = false` and dilation enabled, the extractor's single level
has stride 16, not the claimed 32 (the code halves the last stride
whenever dilation is enabled, in single-level mode too). -/
theorem backbone_singleLevel_stride_cex :
    (Backbone.init "resnet50" false false true trunkW).map
        BackboneBase.strides = some [16] ∧
    some [16] ≠ some ([32] : List Nat) :=
  ⟨rfl, by decide⟩

/-- Claim C4 (amended): for every accepted trunk variant,
`multiLevel = true` yields exactly 3 levels with strides `[8, 16, 32]`
and channels `[512, 1024, 2048]`, and `multiLevel = false` yields
exactly 1 level with stride `32` and channels `[2048]` — in either mode
the last stride is halved to 16 when dilation is enabled. -/
theorem backbone_level_config {α : Type} (name : String) (t : Trunk α)
    (train_backbone dilation : Bool) (x : NestedTensor α) (m : Mask3)
    (hname : ¬(name = "resnet18" ∨ name = "resnet34"))
    (hm : x.mask = some m) :
    (Backbone.init name train_backbone true dilation t).map
        BackboneBase.strides
        = some (if dilation then [8, 16, 16] else [8, 16, 32]) ∧
    (Backbone.init name train_backbone true dilation t).map
        BackboneBase.num_channels = some [512, 1024, 2048] ∧
    (Backbone.init name train_backbone true dilation t).map
        (fun b => (b.forward x).map List.length) = some (some 3) ∧
    (Backbone.init name train_backbone false dilation t).map
        BackboneBase.strides = some (if dilation then [16] else [32]) ∧
    (Backbone.init name train_backbone false dilation t).map
        BackboneBase.num_channels = some [2048] ∧
    (Backbone.init name train_backbone false dilation t).map
        (fun b => (b.forward x).map List.length) = some (some 1) := by
  refine ⟨?_, ?_, ?_, ?_, ?_, ?_⟩ <;>
    cases dilation <;>
      simp [Backbone.init, hname, BackboneBase.init, BackboneBase.forward,
        intermediateLayers, hm]

/-- Witness for C4 (amended) at a concrete accepted variant with
dilation enabled. -/
theorem backbone_level_config_witness :
    ((Backbone.init "resnet50" false true true trunkW).map
        BackboneBase.strides = some (if true then [8, 16, 16] else [8, 16, 32])) ∧
    ((Backbone.init "resnet50" false true true trunkW).map
        BackboneBase.num_channels = some [512, 1024, 2048]) ∧
    ((Backbone.init "resnet50" false true true trunkW).map
        (fun b => (b.forward ntW).map List.length) = some (some 3)) ∧
    ((Backbone.init "resnet50" false false true trunkW).map
        BackboneBase.strides = some (if true then [16] else [32])) ∧
    ((Backbone.init "resnet50" false false true trunkW).map
        BackboneBase.num_channels = some [2048]) ∧
    ((Backbone.init "resnet50" false false true trunkW).map
        (fun b => (b.forward ntW).map List.length) = some (some 1)) :=
  backbone_level_config "resnet50" trunkW false true ntW maskW
    (by decide) rfl

end BackboneFrozen
